import Mathlib

/-
Verification of the callsofia scraper (TypeScript sources: src/client.ts,
src/database.ts, src/parser.ts, scraper entry point) against its
natural-language specification.

Shallow embedding conventions:
* strings are Lean `String`, manipulated through list-based helpers on
  `String.data` (JavaScript string lengths here coincide with code-point
  counts, as every character involved lies in the Basic Multilingual Plane);
* JavaScript numbers produced by parseFloat are modelled as exact decimal
  values (`DecimalNum`, mantissa / 10 ^ shift) plus an explicit NaN
  (`JsNum.nan`); null-ness of a variable of JS type `number | null` is
  modelled by `Option`;
* the cheerio document is a rose tree (`Node`); tree traversals take an
  explicit fuel argument (any fuel at least the number of tree constructors
  makes the traversal total on that tree; each traversal step consumes one
  unit, so `fuel = sizeOf tree` always suffices).  Entry points thread one
  fuel value everywhere, so every theorem below holds for every fuel;
* SQLite tables are association lists keyed by the integer primary key;
  the `datetime('now')` columns (created_at / updated_at) are wall-clock
  effects and are left out of the row model;
* asynchronous effects (network, sleeping) are explicit: the retry wrapper
  returns the list of performed sleep durations, the scrape step returns a
  flag recording whether a network fetch happened.
-/

namespace CallSofia

/-! ### List/string helpers (JavaScript string primitives) -/

/-- JavaScript `String.prototype.includes` on character lists:
`pat` occurs contiguously inside `l`. -/
def listInfixOf (pat : List Char) : List Char → Bool
  | [] => pat.isEmpty
  | c :: rest => pat.isPrefixOf (c :: rest) || listInfixOf pat rest

/-- JavaScript `s.includes(pat)`. -/
def strContains (s pat : String) : Bool := listInfixOf pat.data s.data

/-- The whitespace characters relevant to the scraped documents
(JavaScript `\s` restricted to ASCII whitespace). -/
def isWsChar (c : Char) : Bool := c = ' ' || c = '\t' || c = '\n' || c = '\r'

/-- JavaScript `String.prototype.trim`. -/
def trimList (l : List Char) : List Char :=
  ((l.dropWhile isWsChar).reverse.dropWhile isWsChar).reverse

/-- JavaScript `String.prototype.trim` on `String`. -/
def sTrim (s : String) : String := ⟨trimList s.data⟩

/-- JavaScript `String.prototype.split` with a one-character separator. -/
def splitChar (c : Char) : List Char → List (List Char)
  | [] => [[]]
  | x :: r =>
    if x = c then [] :: splitChar c r
    else
      match splitChar c r with
      | h :: t => (x :: h) :: t
      | [] => [[x]]

/-- `s.split(sep)` for a one-character separator string. -/
def sSplit (s : String) (c : Char) : List String :=
  (splitChar c s.data).map (fun l => ⟨l⟩)

/-- Decimal digit run to a natural number. -/
def digitsToNat (l : List Char) : Nat := l.foldl (fun a c => a * 10 + (c.toNat - 48)) 0

/-- JavaScript `parseInt` on a string: parse the leading run of decimal
digits, NaN (`none`) when there is none.  (The call sites below only ever
pass strings of decimal digits, so sign/radix handling is not needed.) -/
def jsParseIntDigits (l : List Char) : Option Nat :=
  let ds := l.takeWhile Char.isDigit
  if ds.isEmpty then none else some (digitsToNat ds)

/-- Remove the first occurrence of `pat` from `l`
(JavaScript `s.replace(pat, "")` with a string pattern).
An empty pattern leaves the string unchanged. -/
def removeFirst (pat : List Char) : List Char → List Char
  | [] => []
  | c :: rest =>
    if pat.isPrefixOf (c :: rest) && !pat.isEmpty then (c :: rest).drop pat.length
    else c :: removeFirst pat rest

/-! ### Exact decimal model of the JavaScript numbers seen by the parser -/

/-- An exact decimal value `mantissa / 10 ^ shift`.  `parseFloat` on the
digit-and-dot strings captured by the parser's patterns always produces
such a value (JavaScript doubles are approximated by exact decimals;
none of the verified claims depends on binary rounding). -/
structure DecimalNum where
  mantissa : Nat
  shift : Nat
deriving DecidableEq, Repr

/-- A JavaScript number that is either NaN or an exact decimal. -/
inductive JsNum where
  | nan
  | num (d : DecimalNum)
deriving DecidableEq, Repr

/-- JavaScript `parseFloat` on a captured `[\d.]+` string: leading digits,
then an optional fraction after the first dot; NaN when no digit is found
in either part (for example `parseFloat(".")`). -/
def jsParseFloat (l : List Char) : JsNum :=
  let ip := l.takeWhile Char.isDigit
  let r := l.dropWhile Char.isDigit
  let fp := match r with
    | '.' :: r2 => r2.takeWhile Char.isDigit
    | _ => []
  if ip.isEmpty && fp.isEmpty then .nan
  else .num ⟨digitsToNat ip * 10 ^ fp.length + digitsToNat fp, fp.length⟩

/-- JavaScript truthiness of a `number | null` variable:
null, NaN and 0 are falsy. -/
def jsNumFalsy : Option JsNum → Bool
  | none => true
  | some .nan => true
  | some (.num d) => d.mantissa = 0

/-! ### client.ts: extractParentCategoryId -/

/-- client.ts line 194: the known parent category ids, checked in this
fixed order. -/
def knownParentIds : List Nat := [33, 32, 30, 28, 27, 38, 40, 22, 11, 9, 8, 7, 6, 5, 4, 3, 2, 1]

/-- `idStr.startsWith(p.toString())` for a numeric `p`. -/
def decStartsWith (idStr : List Char) (p : Nat) : Bool :=
  (Nat.repr p).data.isPrefixOf idStr

/-- client.ts `CallSofiaClient.extractParentCategoryId` (lines 188-204):
first known parent id whose decimal representation is a prefix of the
subcategory id's decimal representation; otherwise
`parseInt(idStr.substring(0, 2)) || parseInt(idStr.substring(0, 1))`. -/
def extractParentCategoryId (subcategoryId : Nat) : Nat :=
  let idStr := (Nat.repr subcategoryId).data
  match knownParentIds.find? (fun p => decStartsWith idStr p) with
  | some p => p
  | none =>
    match jsParseIntDigits (idStr.take 2) with
    | some m => if m ≠ 0 then m else (jsParseIntDigits (idStr.take 1)).getD 0
    | none => (jsParseIntDigits (idStr.take 1)).getD 0

/-! ### client.ts: withRetry -/

/-- One pass of client.ts `CallSofiaClient.withRetry` (lines 216-234),
starting at loop index `i`.  `fn j` is the outcome of the j-th attempt of
the wrapped action; the returned list collects the argument of every
`sleep` call in order; `.error last` models `throw lastError` (with
`none` standing for the undefined `lastError` when no attempt ran). -/
def withRetryAux {E A : Type} (fn : Nat → Except E A) (d attempts i : Nat)
    (last : Option E) : Except (Option E) A × List Nat :=
  if _h : i < attempts then
    match fn i with
    | .ok a => (.ok a, [])
    | .error e =>
      let r := withRetryAux fn d attempts (i + 1) (some e)
      if i < attempts - 1 then (r.1, d * (i + 1) :: r.2) else r
  else
    (.error last, [])
termination_by attempts - i

/-- client.ts `withRetry(fn, attempts)` with base delay `d`
(`this.config.retryDelayMs`). -/
def withRetry {E A : Type} (fn : Nat → Except E A) (attempts d : Nat) :
    Except (Option E) A × List Nat :=
  withRetryAux fn d attempts 0 none

/-- A concrete action that fails on attempts 0 and 1 and succeeds on
attempt 2, used to witness the retry policy. -/
def retryDemoFn : Nat → Except String Nat :=
  fun j => if j < 2 then .error (toString j) else .ok 42

/-! ### database.ts: progress store and range planning -/

/-- The modelled columns of the singleton `scrape_progress` row
(the two `datetime` columns are wall-clock effects and are not modelled). -/
structure Progress where
  lastScrapedId : Nat
  totalScraped : Nat
  totalErrors : Nat
deriving DecidableEq, Repr

/-- database.ts `SignalDatabase.updateProgress` (lines 347-356):
`last_scraped_id = MAX(last_scraped_id, ?)` plus counter increments. -/
def updateProgress (p : Progress) (lastId incrementScraped incrementErrors : Nat) : Progress :=
  { lastScrapedId := max p.lastScrapedId lastId
    totalScraped := p.totalScraped + incrementScraped
    totalErrors := p.totalErrors + incrementErrors }

/-- database.ts `SignalDatabase.getMissingIds` (lines 471-485): the ids of
`persisted` falling in `[startId, endId]` are collected
(`SELECT id FROM signals WHERE id BETWEEN ? AND ?`), then the dense loop
keeps every id of the range not among them. -/
def getMissingIds (persisted : List Nat) (startId endId : Nat) : List Nat :=
  let existingIds := persisted.filter (fun x => decide (startId ≤ x) && decide (x ≤ endId))
  (List.range' startId (endId + 1 - startId)).filter (fun i => !existingIds.contains i)

/-- Scraper entry point, `Scraper.run` lines 79-85: with the resume flag
set, the start is raised to `lastScrapedId + 1` only when the stored
watermark is positive. -/
def effectiveStart (resume : Bool) (lastScrapedId startId : Nat) : Nat :=
  if resume then
    if 0 < lastScrapedId then max startId (lastScrapedId + 1) else startId
  else startId

/-- Scraper entry point, `Scraper.run` lines 87-95: ids to scrape are the
missing ids when skip-existing is set, else the dense range
`[startId, endId]` (empty when the bounds are inverted, matching
`Array.from` with a non-positive length). -/
def plannedIds (skipExisting : Bool) (persisted : List Nat) (startId endId : Nat) : List Nat :=
  if skipExisting then getMissingIds persisted startId endId
  else List.range' startId (endId + 1 - startId)

/-! ### The cheerio document model used by parser.ts -/

/-- A parsed HTML node: a text node or an element with tag, attribute
list and children. -/
inductive Node where
  | txt (s : String)
  | elem (tag : String) (attrs : List (String × String)) (children : List Node)

/-- An element together with its position: the siblings before it (in
document order), after it, and its proper ancestors (nearest first). -/
structure ECtx where
  node : Node
  before : List Node
  after : List Node
  ancestors : List Node

def tagOf : Node → Option String
  | .txt _ => none
  | .elem t _ _ => some t

def childrenOf : Node → List Node
  | .txt _ => []
  | .elem _ _ cs => cs

def isElemNode : Node → Bool
  | .txt _ => false
  | .elem _ _ _ => true

def getAttr : Node → String → Option String
  | .txt _, _ => none
  | .elem _ attrs _, k => (attrs.find? (fun p => p.1 == k)).map (fun p => p.2)

def classesOf (n : Node) : List String := sSplit ((getAttr n "class").getD "") ' '

def hasClass (n : Node) (c : String) : Bool := (classesOf n).contains c

def hasTag (n : Node) (t : String) : Bool := tagOf n == some t

def hasIdAttr (n : Node) (i : String) : Bool := getAttr n "id" == some i

def attrContains (n : Node) (k sub : String) : Bool :=
  match getAttr n k with
  | some v => strContains v sub
  | none => false

/-- cheerio `.text()` of a node list: concatenation of all descendant
text nodes in document order (script/style content included, as in
cheerio).  The fuel argument makes the traversal structural; any fuel at
least the number of constructors of the forest gives the full text. -/
def textListF (f : Nat) (l : List Node) : String :=
  match f, l with
  | 0, _ => ""
  | _ + 1, [] => ""
  | g + 1, .txt s :: rest => s ++ textListF g rest
  | g + 1, .elem _ _ cs :: rest => textListF g cs ++ textListF g rest

def textOf (f : Nat) (n : Node) : String := textListF f [n]

/-- All element contexts of a forest in document order (pre-order). -/
def ctxListF (f : Nat) (anc before : List Node) (l : List Node) : List ECtx :=
  match f, l with
  | 0, _ => []
  | _ + 1, [] => []
  | g + 1, .txt s :: rest => ctxListF g anc (before ++ [.txt s]) rest
  | g + 1, .elem t a cs :: rest =>
    ⟨.elem t a cs, before, rest, anc⟩ ::
      (ctxListF g (.elem t a cs :: anc) [] cs ++ ctxListF g anc (before ++ [.elem t a cs]) rest)

/-- All element contexts of a document (the root element included). -/
def elemCtxs (f : Nat) : Node → List ECtx
  | .txt _ => []
  | .elem t a cs => ⟨.elem t a cs, [], [], []⟩ :: ctxListF f [.elem t a cs] [] cs

/-- cheerio `$(selector)`: the elements satisfying a predicate, in
document order. -/
def selectCtx (f : Nat) (root : Node) (p : ECtx → Bool) : List ECtx :=
  (elemCtxs f root).filter p

/-- `.text()` of a selection (concatenation over all matched elements). -/
def selTexts (f : Nat) (l : List ECtx) : String :=
  l.foldl (fun acc c => acc ++ textOf f c.node) ""

/-- `.first().text()` of a selection (empty when the selection is empty). -/
def firstText (f : Nat) (l : List ECtx) : String :=
  match l with
  | [] => ""
  | c :: _ => textOf f c.node

/-- `.find(...)` base: the proper descendant elements of a node, in
document order. -/
def descendantsOf (f : Nat) (n : Node) : List Node :=
  (ctxListF f [n] [] (childrenOf n)).map (fun c => c.node)

/-- cheerio `.next()`: the next sibling element. -/
def nextElem (c : ECtx) : Option Node := c.after.find? isElemNode

/-- The immediately preceding sibling element (for the `+` combinator). -/
def prevElem (c : ECtx) : Option Node := c.before.reverse.find? isElemNode

/-! ### parser.ts: extractRowValue -/

/-- parser.ts lines 169-188, the loop over `label:contains(label)`
matches: return the first nonempty trimmed text of a `.col-md-10`
sibling, else the next sibling element's text when nonempty and shorter
than 500 characters, else continue with the next matched label. -/
def labelPathLoop (f : Nat) : List ECtx → Option String
  | [] => none
  | c :: rest =>
    let sibVal : Option String :=
      match ((c.before ++ c.after).filter
          (fun n => isElemNode n && hasClass n "col-md-10")).head? with
      | some v =>
        let t := sTrim (textOf f v)
        if t ≠ "" then some t else none
      | none => none
    match sibVal with
    | some t => some t
    | none =>
      match nextElem c with
      | some nx =>
        let t := sTrim (textOf f nx)
        if t ≠ "" && t.data.length < 500 then some t else labelPathLoop f rest
      | none => labelPathLoop f rest

/-- parser.ts lines 191-204, the fallback loop over `$('.row')`: any row
whose flattened text contains the label yields the text of its first
`.col-md-10` descendant when nonempty. -/
def rowPathLoop (f : Nat) (label : String) : List ECtx → Option String
  | [] => none
  | c :: rest =>
    if strContains (textOf f c.node) label then
      match ((descendantsOf f c.node).filter (fun n => hasClass n "col-md-10")).head? with
      | some v =>
        let t := sTrim (textOf f v)
        if t ≠ "" then some t else rowPathLoop f label rest
      | none => rowPathLoop f label rest
    else rowPathLoop f label rest

/-- parser.ts `SignalParser.extractRowValue` (lines 165-207). -/
def extractRowValue (f : Nat) (root : Node) (label : String) : Option String :=
  let labels := selectCtx f root
    (fun c => hasTag c.node "label" && strContains (textOf f c.node) label)
  match labelPathLoop f labels with
  | some t => some t
  | none => rowPathLoop f label (selectCtx f root (fun c => hasClass c.node "row"))

/-! ### parser.ts: the regular-expression scanners -/

/-- Attempt the tail of `\[\s*([\d.]+)\s*,\s*([\d.]+)\s*\]` right after
an opening bracket; the character classes of the pattern are pairwise
disjoint from the required separators, so the greedy scan is exact. -/
def coordMatchAt (l : List Char) : Option (List Char × List Char) :=
  let l1 := l.dropWhile isWsChar
  let g1 := l1.takeWhile (fun c => c.isDigit || c = '.')
  let l2 := l1.dropWhile (fun c => c.isDigit || c = '.')
  if g1.isEmpty then none
  else
    match l2.dropWhile isWsChar with
    | ',' :: l4 =>
      let l5 := l4.dropWhile isWsChar
      let g2 := l5.takeWhile (fun c => c.isDigit || c = '.')
      let l6 := l5.dropWhile (fun c => c.isDigit || c = '.')
      if g2.isEmpty then none
      else
        match l6.dropWhile isWsChar with
        | ']' :: _ => some (g1, g2)
        | _ => none
    | _ => none

/-- Leftmost match of `/\[\s*([\d.]+)\s*,\s*([\d.]+)\s*\]/`
(parser.ts line 95), returning the two captured groups. -/
def findCoordPair : List Char → Option (List Char × List Char)
  | [] => none
  | '[' :: rest =>
    match coordMatchAt rest with
    | some r => some r
    | none => findCoordPair rest
  | _ :: rest => findCoordPair rest

/-- One group `c\d\.\d+` of the script fallback pattern, anchored at the
given first character (4 or 2). -/
def mapCoordGroup (first : Char) (l : List Char) : Option (List Char × List Char) :=
  match l with
  | c :: d :: '.' :: r =>
    if c = first && d.isDigit then
      let frac := r.takeWhile Char.isDigit
      if frac.isEmpty then none
      else some (c :: d :: '.' :: frac, r.dropWhile Char.isDigit)
    else none
  | _ => none

/-- Attempt the tail of `\[\s*(4\d\.\d+)\s*,\s*(2\d\.\d+)\s*\]` right
after an opening bracket. -/
def mapMatchAt (l : List Char) : Option (List Char × List Char) :=
  match mapCoordGroup '4' (l.dropWhile isWsChar) with
  | some (g1, l2) =>
    match l2.dropWhile isWsChar with
    | ',' :: l3 =>
      match mapCoordGroup '2' (l3.dropWhile isWsChar) with
      | some (g2, l5) =>
        match l5.dropWhile isWsChar with
        | ']' :: _ => some (g1, g2)
        | _ => none
      | none => none
    | _ => none
  | none => none

/-- Leftmost match of `/\[\s*(4\d\.\d+)\s*,\s*(2\d\.\d+)\s*\]/`
(parser.ts line 105). -/
def findMapPair : List Char → Option (List Char × List Char)
  | [] => none
  | '[' :: rest =>
    match mapMatchAt rest with
    | some r => some r
    | none => findMapPair rest
  | _ :: rest => findMapPair rest

/-- Attempt `\d{2}\.\d{2}\.\d{4}\s+\d{2}:\d{2}:\d{2}` at the head of the
list (parser.ts line 23), returning the matched characters. -/
def dateMatchAt (l : List Char) : Option (List Char) :=
  match l with
  | d1 :: d2 :: '.' :: m1 :: m2 :: '.' :: y1 :: y2 :: y3 :: y4 :: rest =>
    if d1.isDigit && d2.isDigit && m1.isDigit && m2.isDigit &&
        y1.isDigit && y2.isDigit && y3.isDigit && y4.isDigit then
      let ws := rest.takeWhile isWsChar
      if ws.isEmpty then none
      else
        match rest.dropWhile isWsChar with
        | h1 :: h2 :: ':' :: n1 :: n2 :: ':' :: s1 :: s2 :: _ =>
          if h1.isDigit && h2.isDigit && n1.isDigit && n2.isDigit &&
              s1.isDigit && s2.isDigit then
            some ([d1, d2, '.', m1, m2, '.', y1, y2, y3, y4] ++ ws ++
              [h1, h2, ':', n1, n2, ':', s1, s2])
          else none
        | _ => none
    else none
  | _ => none

/-- Leftmost match of the registration-date pattern. -/
def findDateMatch : List Char → Option (List Char)
  | [] => none
  | c :: rest =>
    match dateMatchAt (c :: rest) with
    | some r => some r
    | none => findDateMatch rest

/-- Optional suffix `(?:-\[\d+\])?` of the registration-number pattern
(greedy): the matched characters and the rest, or nothing matched. -/
def regNumSuffix (l : List Char) : List Char :=
  match l with
  | '-' :: '[' :: r =>
    let ds := r.takeWhile Char.isDigit
    if ds.isEmpty then []
    else
      match r.dropWhile Char.isDigit with
      | ']' :: _ => '-' :: '[' :: (ds ++ [']'])
      | _ => []
  | _ => []

/-- Tail `-?\d+(?:-\[\d+\])?` of the registration-number pattern after
the `\d{0,2}` part consumed `kd` (JavaScript tries the dash first). -/
def regNumTailWith (kd l : List Char) : Option (List Char) :=
  let tryFrom : List Char → Option (List Char) := fun r =>
    let ds := r.takeWhile Char.isDigit
    if ds.isEmpty then none
    else some (ds ++ regNumSuffix (r.dropWhile Char.isDigit))
  match l with
  | '-' :: r =>
    match tryFrom r with
    | some t => some (kd ++ '-' :: t)
    | none =>
      match tryFrom l with
      | some t => some (kd ++ t)
      | none => none
  | _ =>
    match tryFrom l with
    | some t => some (kd ++ t)
    | none => none

/-- Attempt `СО[А]?\d{2}-КЦ\d{0,2}-?\d+(?:-\[\d+\])?` at the head of the
list (parser.ts line 29), with the `\d{0,2}` part backtracking from two
digits down to none, as the JavaScript engine does. -/
def regNumMatchAt (l : List Char) : Option (List Char) :=
  match l with
  | 'С' :: 'О' :: rest =>
    let withA : Bool :=
      match rest with
      | 'А' :: _ => true
      | _ => false
    let rest1 := if withA then rest.drop 1 else rest
    match rest1 with
    | a :: b :: '-' :: 'К' :: 'Ц' :: r2 =>
      if a.isDigit && b.isDigit then
        let try2 : Option (List Char) :=
          match r2 with
          | x :: y :: r3 => if x.isDigit && y.isDigit then regNumTailWith [x, y] r3 else none
          | _ => none
        let try1 : Option (List Char) :=
          match r2 with
          | x :: r3 => if x.isDigit then regNumTailWith [x] r3 else none
          | _ => none
        let t :=
          match try2 with
          | some t => some t
          | none =>
            match try1 with
            | some t => some t
            | none => regNumTailWith [] r2
        match t with
        | some tail =>
          some ('С' :: 'О' :: (if withA then ['А'] else []) ++
            a :: b :: '-' :: 'К' :: 'Ц' :: tail)
        | none => none
      else none
    | _ => none
  | _ => none

/-- Leftmost match of the registration-number pattern. -/
def findRegNum : List Char → Option (List Char)
  | [] => none
  | c :: rest =>
    match regNumMatchAt (c :: rest) with
    | some r => some r
    | none => findRegNum rest

/-- Lower-casing for the case-insensitive patterns: ASCII letters and the
basic Cyrillic uppercase range (the only letters the patterns use). -/
def lowerChar (c : Char) : Char :=
  if 'A' ≤ c && c ≤ 'Z' then Char.ofNat (c.toNat + 32)
  else if 'А' ≤ c && c ≤ 'Я' then Char.ofNat (c.toNat + 32)
  else c

/-- Case-insensitive prefix test against an already lower-case word. -/
def startsWithCI (w l : List Char) : Bool := (l.take w.length).map lowerChar == w

/-- Index of the first position where one of the stop words starts
(case-insensitively); the length of the list when none does — this is the
lookahead `(?=Статус|Категория|Район|$)` of the description pattern. -/
def findStopIdxCI (stops : List (List Char)) : List Char → Nat
  | [] => 0
  | c :: rest =>
    if stops.any (fun w => startsWithCI w (c :: rest)) then 0
    else 1 + findStopIdxCI stops rest

/-- Rest of the list after the first case-insensitive occurrence of `w`,
or `none` when `w` does not occur. -/
def dropUntilCI (w : List Char) : List Char → Option (List Char)
  | [] => if w.isEmpty then some [] else none
  | c :: rest =>
    if startsWithCI w (c :: rest) then some ((c :: rest).drop w.length)
    else dropUntilCI w rest

/-- The capture of
`/Описание[:\s]*([\s\S]*?)(?=Статус|Категория|Район|$)/i`
(parser.ts line 234): skip the label and the following colons/whitespace,
then take lazily up to the first stop word or the end. -/
def descMatchCapture (pageContent : List Char) : Option (List Char) :=
  match dropUntilCI "описание".data pageContent with
  | some r1 =>
    let r2 := r1.dropWhile (fun c => c = ':' || isWsChar c)
    some (r2.take (findStopIdxCI ["статус".data, "категория".data, "район".data] r2))
  | none => none

/-- Attempt `key['":\s]+(\d+)` (case-insensitive key) at the head of the
list; 39 and 34 are the code points of the single and double quote. -/
def keyNumAt (key l : List Char) : Option Nat :=
  if startsWithCI key l then
    let r := l.drop key.length
    let seps := r.takeWhile (fun c => c.toNat = 39 || c.toNat = 34 || c = ':' || isWsChar c)
    if seps.isEmpty then none
    else
      let ds := (r.drop seps.length).takeWhile Char.isDigit
      if ds.isEmpty then none else some (digitsToNat ds)
  else none

/-- Leftmost match of `/key['":\s]+(\d+)/i` (parser.ts lines 131, 136),
returning the captured number. -/
def findKeyNum (key : List Char) : List Char → Option Nat
  | [] => none
  | c :: rest =>
    match keyNumAt key (c :: rest) with
    | some v => some v
    | none => findKeyNum key rest

/-! ### types.ts: the Signal record -/

/-- types.ts `Signal` (the two `createdAt`/`updatedAt` wall-clock strings
are not modelled; `status` is produced by the parser as a string, possibly
empty, but the stored column is nullable, hence `Option`). -/
structure Signal where
  id : Nat
  registrationNumber : Option String
  registrationDate : Option String
  categoryId : Option Nat
  categoryName : Option String
  subcategoryId : Option Nat
  subcategoryName : Option String
  status : Option String
  statusDate : Option String
  district : Option String
  neighborhood : Option String
  address : Option String
  latitude : Option JsNum
  longitude : Option JsNum
  description : Option String
  problemLocation : Option String
  hasDocuments : Bool
  rawHtml : Option String
deriving DecidableEq, Repr

/-- JavaScript `a || b` on the parser's nullable strings (the parser's
string results are never empty when non-null, so truthiness is
null-ness). -/
def jsOr (a b : Option String) : Option String :=
  match a with
  | some s => some s
  | none => b

/-- JavaScript `s.replace(/^\s*$/, "")`: blank the string when it
consists of whitespace only. -/
def jsReplaceWsOnly (s : String) : String := if s.data.all isWsChar then "" else s

/-- Concatenated text of all script elements, cheerio
`$('script').text()` (parser.ts lines 104, 130). -/
def scriptTextOf (f : Nat) (doc : Node) : String :=
  selTexts f (selectCtx f doc (fun c => hasTag c.node "script"))

/-! ### parser.ts: coordinate extraction (parse, lines 87-110) -/

/-- parser.ts lines 87-110: the latitude/longitude pair of `parse`.
First the bracketed pair of the location row value; when either variable
is falsy (null, NaN or 0), the script fallback pattern; a successful
match always assigns both variables. -/
def parseCoords (f : Nat) (doc : Node) : Option JsNum × Option JsNum :=
  let locationText := jsOr (extractRowValue f doc "Местоположение")
    (extractRowValue f doc "LOCATION")
  let first : Option JsNum × Option JsNum :=
    match locationText with
    | some lt =>
      match findCoordPair lt.data with
      | some (g1, g2) => (some (jsParseFloat g1), some (jsParseFloat g2))
      | none => (none, none)
    | none => (none, none)
  if jsNumFalsy first.1 || jsNumFalsy first.2 then
    match findMapPair (scriptTextOf f doc).data with
    | some (g1, g2) => (some (jsParseFloat g1), some (jsParseFloat g2))
    | none => first
  else first

/-! ### parser.ts: description extraction -/

/-- parser.ts `SignalParser.extractDescription` (lines 209-244): an
ordered list of selectors, each accepted when its first match has trimmed
text longer than 10 characters; then the labelled-window pattern over the
page content, accepted between 10 and 5000 characters. -/
def extractDescription (f : Nat) (doc : Node) : Option String :=
  let fromSel : List ECtx → Option String := fun sel =>
    match sel.head? with
    | some c =>
      let t := sTrim (textOf f c.node)
      if t ≠ "" && t.data.length > 10 then some t else none
    | none => none
  let r1 := fromSel (selectCtx f doc (fun c => hasClass c.node "signal-description"))
  let r2 := fromSel (selectCtx f doc (fun c => hasClass c.node "description"))
  let r3 := fromSel (selectCtx f doc (fun c => hasIdAttr c.node "description"))
  let r4 := fromSel (selectCtx f doc
    (fun c => hasTag c.node "textarea" && attrContains c.node "name" "escription"))
  let r5 := fromSel (selectCtx f doc (fun c => hasClass c.node "form-control-static" &&
    c.ancestors.any (fun a => hasClass a "form-group" && strContains (textOf f a) "Описание")))
  let r6 := fromSel (selectCtx f doc (fun c => hasTag c.node "dd" &&
    (match prevElem c with
     | some p => hasTag p "dt" && strContains (textOf f p) "Описание"
     | none => false)))
  let r7 := fromSel (selectCtx f doc
    (fun c => hasTag c.node "p" && c.ancestors.any (fun a => hasClass a "panel-body")))
  match jsOr r1 (jsOr r2 (jsOr r3 (jsOr r4 (jsOr r5 (jsOr r6 r7))))) with
  | some t => some t
  | none =>
    let pageContent := selTexts f (selectCtx f doc (fun c =>
      hasClass c.node "signal-content" || hasClass c.node "content" ||
      hasClass c.node "panel-body" || hasTag c.node "main"))
    if strContains pageContent "Описание" then
      match descMatchCapture pageContent.data with
      | some cap =>
        if cap.isEmpty then none
        else
          let d := sTrim (String.mk cap)
          if d.data.length > 10 && d.data.length < 5000 then some d else none
      | none => none
    else none

/-! ### parser.ts: parse -/

/-- The two "no such item" marker phrases (parser.ts line 10). -/
def notFoundMarker1 : String := "Няма регистриран сигнал"

def notFoundMarker2 : String := "Невалиден номер"

/-- cheerio `$('body').text()`: the flattened text of the body element,
script and style content included. -/
def bodyTextOf (f : Nat) (doc : Node) : String :=
  selTexts f (selectCtx f doc (fun c => hasTag c.node "body"))

/-- parser.ts `SignalParser.parse` (lines 5-162). -/
def parse (f : Nat) (doc : Node) (signalId : Nat) : Option Signal :=
  let bodyText := bodyTextOf f doc
  if strContains bodyText notFoundMarker1 || strContains bodyText notFoundMarker2 then
    none
  else
    let h3a := sTrim (selTexts f (selectCtx f doc (fun c =>
      hasTag c.node "h3" && c.ancestors.any (fun a => hasClass a "content-wrapper"))))
    let headerText :=
      if h3a ≠ "" then h3a
      else sTrim (selTexts f (selectCtx f doc (fun c =>
        hasTag c.node "h3" && strContains (textOf f c.node) "Сигнал №")))
    let registrationDate := (findDateMatch headerText.data).map (fun l => String.mk l)
    let registrationNumber := (findRegNum headerText.data).map (fun l => String.mk l)
    let st1 := sTrim (firstText f (selectCtx f doc (fun c => hasIdAttr c.node "statusIndicator")))
    let st2 := sTrim (selTexts f (selectCtx f doc (fun c => hasIdAttr c.node "statusName")))
    let st3 := sTrim (firstText f (selectCtx f doc (fun c => hasClass c.node "status_indicator")))
    let status := if st1 ≠ "" then st1 else if st2 ≠ "" then st2 else st3
    let categoryH4 := (selectCtx f doc (fun c =>
      hasTag c.node "h4" && c.ancestors.any (fun a => hasClass a "content-wrapper"))).head?
    let names : Option String × Option String :=
      match categoryH4 with
      | none => (none, none)
      | some c =>
        let h4Text := sTrim (textOf f c.node)
        let subcatItalic := sTrim
          (match ((descendantsOf f c.node).filter (fun n => hasTag n "i")).getLast? with
           | some n => textOf f n
           | none => "")
        let subcategoryName1 : Option String :=
          if subcatItalic ≠ "" then some subcatItalic else none
        let parts := (sSplit h4Text '/').map sTrim
        let categoryName1 : Option String :=
          let v := sTrim (jsReplaceWsOnly (parts.headD ""))
          if v ≠ "" then some v else none
        let categoryName2 : Option String :=
          match categoryName1 with
          | some v => some v
          | none =>
            if parts.length ≥ 2 then
              let base := (parts.drop 1).headD ""
              let v := sTrim (String.mk (removeFirst
                (match subcategoryName1 with
                 | some s => s.data
                 | none => []) base.data))
              if v ≠ "" then some v else none
            else none
        if strContains h4Text "/" then
          let splitParts := sSplit h4Text '/'
          if splitParts.length ≥ 2 then
            let cn := sTrim (splitParts.headD "")
            let sn := sTrim ((splitParts.drop 1).headD "")
            ((if cn ≠ "" then some cn else none),
             (if subcatItalic ≠ "" then some subcatItalic
              else if sn ≠ "" then some sn else none))
          else (categoryName2, subcategoryName1)
        else (categoryName2, subcategoryName1)
    let district := extractRowValue f doc "Район"
    let neighborhood := jsOr (extractRowValue f doc "ж.к.")
      (jsOr (extractRowValue f doc "Квартал") (extractRowValue f doc "NEIGHBOURHOOD"))
    let address := jsOr (extractRowValue f doc "Приблизителен адрес")
      (jsOr (extractRowValue f doc "Улица") (extractRowValue f doc "ADDRESS"))
    let coords := parseCoords f doc
    let ogd : Option String :=
      match (selectCtx f doc (fun c =>
        hasTag c.node "meta" && getAttr c.node "property" == some "og:description")).head? with
      | some c => getAttr c.node "content"
      | none => none
    let description0 : Option String :=
      match ogd with
      | some s => if s ≠ "" then some s else none
      | none => none
    let description :=
      match description0 with
      | some s => some s
      | none => extractDescription f doc
    let problemLocation := jsOr (extractRowValue f doc "Проблемът се намира")
      (extractRowValue f doc "Местоположение на проблема")
    let hasDocuments :=
      !(selectCtx f doc (fun c => hasClass c.node "document-list")).isEmpty ||
      !(selectCtx f doc (fun c => hasTag c.node "a" && attrContains c.node "href" "Document")).isEmpty ||
      !(selectCtx f doc (fun c => hasTag c.node "a" && attrContains c.node "href" "Attachment")).isEmpty
    let allScripts := scriptTextOf f doc
    let subcategoryId := findKeyNum "subcategoryid".data allScripts.data
    let categoryId := findKeyNum "categoryid".data allScripts.data
    some {
      id := signalId
      registrationNumber := registrationNumber
      registrationDate := registrationDate
      categoryId := categoryId
      categoryName := names.1
      subcategoryId := subcategoryId
      subcategoryName := names.2
      status := some status
      statusDate := registrationDate
      district := district
      neighborhood := neighborhood
      address := address
      latitude := coords.1
      longitude := coords.2
      description := description
      problemLocation := problemLocation
      hasDocuments := hasDocuments
      rawHtml := none }

/-! ### parser.ts: extractRawContent (the repository's visible text) -/

/-- Remove every script, style and noscript element from a forest
(parser.ts line 249). -/
def stripScriptsF (f : Nat) (l : List Node) : List Node :=
  match f, l with
  | 0, _ => []
  | _ + 1, [] => []
  | g + 1, .txt s :: rest => .txt s :: stripScriptsF g rest
  | g + 1, .elem t a cs :: rest =>
    if t == "script" || t == "style" || t == "noscript" then stripScriptsF g rest
    else .elem t a (stripScriptsF g cs) :: stripScriptsF g rest

/-- JavaScript `s.replace(/\s+/g, " ")`: collapse whitespace runs into
single spaces (fuelled on the remaining length, which always suffices). -/
def collapseWsF (f : Nat) (l : List Char) : List Char :=
  match f, l with
  | 0, _ => []
  | _ + 1, [] => []
  | g + 1, c :: r =>
    if isWsChar c then ' ' :: collapseWsF g (r.dropWhile isWsChar)
    else c :: collapseWsF g r

/-- parser.ts `SignalParser.extractRawContent` (lines 247-251), the
repository's own notion of the visible text of a page: remove
script/style/noscript, take the body text, collapse whitespace, trim. -/
def extractRawContent (f : Nat) (doc : Node) : String :=
  let d2 : Node :=
    match doc with
    | .txt s => .txt s
    | .elem t a cs => .elem t a (stripScriptsF f cs)
  let bodyText := bodyTextOf f d2
  sTrim (String.mk (collapseWsF (bodyText.data.length + 1) bodyText.data))

/-! ### database.ts: the signals table and upsertSignal -/

/-- The modelled columns of one row of the `signals` table (database.ts
lines 24-45); `created_at`/`updated_at` are `datetime('now')` columns and
are not modelled.  `has_documents` is stored as the integer 0/1 the code
binds. -/
structure SignalRow where
  registration_number : Option String
  registration_date : Option String
  category_id : Option Nat
  category_name : Option String
  subcategory_id : Option Nat
  subcategory_name : Option String
  status : Option String
  status_date : Option String
  district : Option String
  neighborhood : Option String
  address : Option String
  latitude : Option JsNum
  longitude : Option JsNum
  description : Option String
  problem_location : Option String
  has_documents : Nat
  raw_html : Option String
deriving DecidableEq, Repr

/-- The row bound by the INSERT arm of the upsert (database.ts
lines 149-168). -/
def toRow (s : Signal) : SignalRow :=
  { registration_number := s.registrationNumber
    registration_date := s.registrationDate
    category_id := s.categoryId
    category_name := s.categoryName
    subcategory_id := s.subcategoryId
    subcategory_name := s.subcategoryName
    status := s.status
    status_date := s.statusDate
    district := s.district
    neighborhood := s.neighborhood
    address := s.address
    latitude := s.latitude
    longitude := s.longitude
    description := s.description
    problem_location := s.problemLocation
    has_documents := if s.hasDocuments then 1 else 0
    raw_html := s.rawHtml }

/-- The DO UPDATE arm of the upsert (database.ts lines 128-146): every
column is assigned the excluded (new) value, except
`raw_html = COALESCE(excluded.raw_html, raw_html)`. -/
def mergeRow (old : SignalRow) (s : Signal) : SignalRow :=
  { toRow s with
    raw_html :=
      match s.rawHtml with
      | some h => some h
      | none => old.raw_html }

/-- The `signals` table as an association list keyed by the integer
primary key (the SQL PRIMARY KEY guarantees key uniqueness). -/
def SignalTable : Type := List (Nat × SignalRow)

/-- database.ts `SignalDatabase.upsertSignal` (lines 118-169):
`INSERT ... ON CONFLICT(id) DO UPDATE`, updating the conflicting row in
place. -/
def upsertSignal (t : SignalTable) (s : Signal) : SignalTable :=
  match t with
  | [] => [(s.id, toRow s)]
  | (k, r) :: rest =>
    if k = s.id then (k, mergeRow r s) :: rest
    else (k, r) :: upsertSignal rest s

/-! ### database.ts: classification lookups -/

/-- database.ts `getCategoryIdByName` (lines 294-299): exact-name lookup,
with `row?.id || null` turning a zero id into null. -/
def getCategoryIdByName (cats : List (Nat × String)) (name : String) : Option Nat :=
  match cats.find? (fun c => c.2 == name) with
  | some c => if c.1 = 0 then none else some c.1
  | none => none

/-- database.ts `getSubcategoryIdByName` (lines 302-307); the subcategory
table rows are (id, name, parent_category_id). -/
def getSubcategoryIdByName (subs : List (Nat × String × Nat)) (name : String) : Option Nat :=
  match subs.find? (fun c => c.2.1 == name) with
  | some c => if c.1 = 0 then none else some c.1
  | none => none

/-- database.ts `SignalDatabase.lookupCategoryIds` (lines 310-333):
resolve both ids by name; when only the subcategory resolves, derive the
category from its stored parent (again with `|| null` on zero). -/
def lookupCategoryIds (cats : List (Nat × String)) (subs : List (Nat × String × Nat))
    (categoryName subcategoryName : Option String) : Option Nat × Option Nat :=
  let cid0 : Option Nat :=
    match categoryName with
    | some n => if n ≠ "" then getCategoryIdByName cats n else none
    | none => none
  match subcategoryName with
  | some sn =>
    if sn ≠ "" then
      let sid := getSubcategoryIdByName subs sn
      match sid, cid0 with
      | some s, none =>
        let parent : Option Nat :=
          match subs.find? (fun x => x.1 == s) with
          | some x => if x.2.2 = 0 then none else some x.2.2
          | none => none
        (parent, some s)
      | _, _ => (cid0, sid)
    else (cid0, none)
  | none => (cid0, none)

/-! ### Scraper.scrapeSignal -/

/-- The in-memory `this.stats` counters of the scraper. -/
structure Stats where
  scraped : Nat
  skipped : Nat
  errors : Nat
  notFound : Nat
deriving DecidableEq, Repr

/-- The scraper-visible state: in-memory counters, the durable progress
row and the append-only error log (entries are (signal_id, message,
error_type)). -/
structure ScrapeState where
  stats : Stats
  progress : Progress
  errorLog : List (Nat × String × String)
deriving DecidableEq, Repr

/-- Outcome of `withRetry(() => getSignalDetailsHtml(id))` for one item:
a terminal throw, the null of a protocol-level 404, or the fetched page
(its raw text together with the tree `cheerio.load` builds from it; the
HTML parser itself is outside the model). -/
inductive FetchResult where
  | throws (msg : String)
  | nullHtml
  | ok (rawHtml : String) (doc : Node)

/-- Scraper entry point, `Scraper.scrapeSignal` (lines 147-211), as one
state transition.  `dbHas` is the `signalExists(id)` answer,
`persistFails` simulates a throwing `upsertSignal` (`some msg` aborts the
item with that error), and the returned Bool records whether a network
fetch was performed.  The optional `fetchExtras` step catches its own
errors and touches neither counters nor the signals table, so it does not
appear in the state. -/
def scrapeSignal (skipExisting saveHtml dbHas : Bool) (fetch : FetchResult)
    (persistFails : Option String) (cats : List (Nat × String))
    (subs : List (Nat × String × Nat)) (f : Nat) (id : Nat)
    (st : ScrapeState) (tbl : SignalTable) : ScrapeState × SignalTable × Bool :=
  if !skipExisting && dbHas then
    ({ st with stats := { st.stats with skipped := st.stats.skipped + 1 } }, tbl, false)
  else
    match fetch with
    | .throws msg =>
      ({ stats := { st.stats with errors := st.stats.errors + 1 }
         progress := updateProgress st.progress id 0 1
         errorLog := st.errorLog ++ [(id, msg, "scrape")] }, tbl, true)
    | .nullHtml =>
      ({ st with
         stats := { st.stats with notFound := st.stats.notFound + 1 }
         progress := updateProgress st.progress id 0 0 }, tbl, true)
    | .ok raw doc =>
      if strContains raw notFoundMarker1 || strContains raw notFoundMarker2 then
        ({ st with
           stats := { st.stats with notFound := st.stats.notFound + 1 }
           progress := updateProgress st.progress id 0 0 }, tbl, true)
      else
        match parse f doc id with
        | none =>
          ({ st with
             stats := { st.stats with notFound := st.stats.notFound + 1 }
             progress := updateProgress st.progress id 0 0 }, tbl, true)
        | some sig =>
          let ids := lookupCategoryIds cats subs sig.categoryName sig.subcategoryName
          let sig1 := { sig with categoryId := ids.1, subcategoryId := ids.2 }
          let sig2 := if saveHtml then { sig1 with rawHtml := some raw } else sig1
          match persistFails with
          | some msg =>
            ({ stats := { st.stats with errors := st.stats.errors + 1 }
               progress := updateProgress st.progress id 0 1
               errorLog := st.errorLog ++ [(id, msg, "scrape")] }, tbl, true)
          | none =>
            ({ st with
               stats := { st.stats with scraped := st.stats.scraped + 1 }
               progress := updateProgress st.progress id 1 0 },
             upsertSignal tbl sig2, true)

/-! ### Concrete documents and records used by the claim theorems -/

/-- A page on which the label text "Район" occurs both inside a script
and in a genuine label element whose value region is the district. -/
def docAnchored : Node :=
  .elem "html" [] [
    .elem "body" [] [
      .elem "script" [] [.txt "var labels = [Район, Адрес];"],
      .elem "div" [("class", "row")] [
        .elem "label" [("class", "col-md-2")] [.txt "Район:"],
        .elem "div" [("class", "col-md-10")] [.txt "район Младост"]]]]

/-- A page with no label element at all: the label text occurs only
inside a script that sits inside a `.row` container which also has a
`.col-md-10` child. -/
def docUnanchored : Node :=
  .elem "html" [] [
    .elem "body" [] [
      .elem "div" [("class", "row")] [
        .elem "script" [] [.txt "if (x == 1) send(Район);"],
        .elem "div" [("class", "col-md-10")] [.txt "JUNKVALUE"]]]]

/-- A 1001-character value string. -/
def longValue : String := String.mk (List.replicate 1001 'x')

/-- A page whose genuine label row carries a 1001-character value in its
`.col-md-10` region. -/
def docLongValue : Node :=
  .elem "html" [] [
    .elem "body" [] [
      .elem "div" [("class", "row")] [
        .elem "label" [] [.txt "Район:"],
        .elem "div" [("class", "col-md-10")] [.txt longValue]]]]

/-- A 600-character value string. -/
def midValue : String := String.mk (List.replicate 600 'y')

/-- A page where the only candidate value is the label's next sibling
with 600 characters of text; no `.col-md-10` and no `.row` anywhere. -/
def docNextSibCap : Node :=
  .elem "html" [] [
    .elem "body" [] [
      .elem "div" [] [
        .elem "label" [] [.txt "Район:"],
        .elem "span" [] [.txt midValue]]]]

/-- A page whose location row is `Местоположение [42.123456,23.654321]`. -/
def docCoords : Node :=
  .elem "html" [] [
    .elem "body" [] [
      .elem "div" [("class", "row")] [
        .elem "label" [] [.txt "Местоположение"],
        .elem "div" [("class", "col-md-10")] [.txt "Местоположение [42.123456,23.654321]"]]]]

/-- The same page but with a single bracketed number. -/
def docOneCoord : Node :=
  .elem "html" [] [
    .elem "body" [] [
      .elem "div" [("class", "row")] [
        .elem "label" [] [.txt "Местоположение"],
        .elem "div" [("class", "col-md-10")] [.txt "Местоположение [42.123456]"]]]]

/-- A page whose only occurrence of a "no such item" marker phrase sits
inside a script element; its visible text carries no marker. -/
def docScriptMarker : Node :=
  .elem "html" [] [
    .elem "body" [] [
      .elem "script" [] [.txt "var notFoundText = Няма регистриран сигнал;"],
      .elem "div" [] [.txt "Сигнал 12345 детайли"]]]

/-- A marker-free page that parses successfully. -/
def docPlain : Node :=
  .elem "html" [] [.elem "body" [] [.elem "div" [] [.txt "hello"]]]

/-- A fully populated record for signal 1. -/
def sigFirst : Signal :=
  { id := 1
    registrationNumber := some "СО14-КЦ-199"
    registrationDate := some "01.02.2014 10:00:00"
    categoryId := some 3
    categoryName := some "Пътна инфраструктура"
    subcategoryId := some 30271
    subcategoryName := some "Проблеми с велосипедната инфраструктура"
    status := some "Приключен"
    statusDate := some "01.02.2014 10:00:00"
    district := some "район Младост"
    neighborhood := some "Младост 1"
    address := some "ул. Единадесета 5"
    latitude := some (.num ⟨42123456, 6⟩)
    longitude := some (.num ⟨23654321, 6⟩)
    description := some "Дупка на пътното платно"
    problemLocation := some "На улицата"
    hasDocuments := true
    rawHtml := some "raw page content" }

/-- A second write for the same id that is silent (null) on most fields. -/
def sigSecond : Signal :=
  { id := 1
    registrationNumber := some "СО14-КЦ-199"
    registrationDate := some "01.02.2014 10:00:00"
    categoryId := none
    categoryName := none
    subcategoryId := none
    subcategoryName := none
    status := some "В процес на работа"
    statusDate := none
    district := none
    neighborhood := none
    address := none
    latitude := none
    longitude := none
    description := none
    problemLocation := none
    hasDocuments := false
    rawHtml := none }

/-- An initial scraper state with all counters and the watermark at 0. -/
def demoState : ScrapeState := ⟨⟨0, 0, 0, 0⟩, ⟨0, 0, 0⟩, []⟩

end CallSofia

namespace CallSofia

/-! ### Theorems: helpers -/

/-- Membership in the planner's missing-id list is exactly membership in
the dense range minus the persisted set. -/
theorem mem_getMissingIds (persisted : List Nat) (s e i : Nat) :
    i ∈ getMissingIds persisted s e ↔ (s ≤ i ∧ i ≤ e ∧ i ∉ persisted) := by
  simp [getMissingIds, List.mem_filter, List.mem_range'_1]
  constructor
  · rintro ⟨⟨h1, h2⟩, h3⟩
    refine ⟨h1, by omega, ?_⟩
    rcases h3 with h | h | h
    · exact h
    · omega
    · omega
  · rintro ⟨h1, h2, h3⟩
    exact ⟨⟨h1, by omega⟩, Or.inl h3⟩

/-- The missing-id list is strictly ascending. -/
theorem getMissingIds_pairwise (persisted : List Nat) (s e : Nat) :
    (getMissingIds persisted s e).Pairwise (· < ·) :=
  List.Pairwise.filter _ (List.pairwise_lt_range' _ _ 1 (by omega))

/-- `List.find?` returns the satisfying element of least index. -/
theorem find?_first_index (p : Nat → Bool) (l : List Nat) (r : Nat)
    (h : l.find? p = some r) :
    ∀ q ∈ l, p q = true → l.indexOf r ≤ l.indexOf q := by
  induction l with
  | nil => intro q hq; cases hq
  | cons x t ih =>
    intro q hq hpq
    by_cases hx : p x = true
    · rw [List.find?_cons_of_pos _ hx] at h
      cases h
      simp [List.indexOf_cons_self]
    · rw [List.find?_cons_of_neg _ hx] at h
      have hpr := List.find?_some h
      have hxr : x ≠ r := by
        intro he
        rw [he] at hx
        exact hx hpr
      have hxq : x ≠ q := by
        intro he
        rw [he] at hx
        exact hx hpq
      rw [List.mem_cons] at hq
      rcases hq with hq | hq
      · exact absurd hq.symm hxq
      · rw [List.indexOf_cons_ne _ hxr, List.indexOf_cons_ne _ hxq]
        exact Nat.succ_le_succ (ih h q hq hpq)

/-- Membership in the planner's id sequence, for both values of the
skip-existing flag. -/
theorem mem_plannedIds (sk : Bool) (persisted : List Nat) (s e i : Nat) :
    i ∈ plannedIds sk persisted s e ↔ (s ≤ i ∧ i ≤ e ∧ (sk = true → i ∉ persisted)) := by
  cases sk
  · simp [plannedIds, List.mem_range'_1]
    omega
  · simp [plannedIds, mem_getMissingIds]

/-- Characterization of a successful run of the retry loop starting at
attempt `i`: attempts `i..k-1` fail, attempt `k` succeeds, so the loop
returns the success value after sleeping `d*(i+1), ..., d*k`. -/
theorem withRetryAux_ok {E A : Type} (fn : Nat → Except E A) (d n k : Nat) (a : A)
    (e : Nat → E) (hk : k < n) :
    ∀ i last, i ≤ k → (∀ j, i ≤ j → j < k → fn j = .error (e j)) → fn k = .ok a →
      withRetryAux fn d n i last = (.ok a, (List.range' (i + 1) (k - i)).map (fun m => d * m)) := by
  have H : ∀ m i last, k - i = m → i ≤ k →
      (∀ j, i ≤ j → j < k → fn j = .error (e j)) → fn k = .ok a →
      withRetryAux fn d n i last = (.ok a, (List.range' (i + 1) (k - i)).map (fun m => d * m)) := by
    intro m
    induction m with
    | zero =>
      intro i last hki hik hfail hok
      have hike : i = k := by omega
      subst hike
      unfold withRetryAux
      rw [dif_pos hk, hok]
      simp
    | succ m ih =>
      intro i last hki hik hfail hok
      have hik2 : i < k := by omega
      unfold withRetryAux
      rw [dif_pos (show i < n by omega)]
      simp only [hfail i (Nat.le_refl i) hik2]
      rw [if_pos (show i < n - 1 by omega)]
      rw [ih (i + 1) (some (e i)) (by omega) (by omega)
        (fun j hj1 hj2 => hfail j (by omega) hj2) hok]
      have hspl : k - i = (k - (i + 1)) + 1 := by omega
      rw [hspl, List.range'_succ]
      simp
  intro i last hik hfail hok
  exact H (k - i) i last rfl hik hfail hok

/-- Characterization of an exhausted run of the retry loop starting at
attempt `i`: every remaining attempt fails, so the loop surfaces the last
error after sleeping `d*(i+1), ..., d*(n-1)`. -/
theorem withRetryAux_err {E A : Type} (fn : Nat → Except E A) (d n : Nat) (e : Nat → E) :
    ∀ i last, i < n → (∀ j, i ≤ j → j < n → fn j = .error (e j)) →
      withRetryAux fn d n i last =
        (.error (some (e (n - 1))), (List.range' (i + 1) (n - 1 - i)).map (fun m => d * m)) := by
  have H : ∀ m i last, n - 1 - i = m → i < n →
      (∀ j, i ≤ j → j < n → fn j = .error (e j)) →
      withRetryAux fn d n i last =
        (.error (some (e (n - 1))), (List.range' (i + 1) (n - 1 - i)).map (fun m => d * m)) := by
    intro m
    induction m with
    | zero =>
      intro i last hni hin hfail
      have hie : i = n - 1 := by omega
      unfold withRetryAux
      rw [dif_pos hin]
      simp only [hfail i (Nat.le_refl i) hin]
      rw [if_neg (show ¬ i < n - 1 by omega)]
      unfold withRetryAux
      rw [dif_neg (show ¬ i + 1 < n by omega)]
      rw [hni]
      simp [hie]
    | succ m ih =>
      intro i last hni hin hfail
      have hin1 : i < n - 1 := by omega
      unfold withRetryAux
      rw [dif_pos hin]
      simp only [hfail i (Nat.le_refl i) hin]
      rw [if_pos hin1]
      rw [ih (i + 1) (some (e i)) (by omega) (by omega)
        (fun j hj1 hj2 => hfail j (by omega) hj2)]
      have hspl : n - 1 - i = (n - 1 - (i + 1)) + 1 := by omega
      rw [hspl, List.range'_succ]
      simp
  intro i last hin hfail
  exact H (n - 1 - i) i last rfl hin hfail

/-! ### Claim theorems -/

/-- Claim C4: the retry wrapper returns the action's value as soon as an
attempt succeeds, sleeping `d * k` after the k-th failed attempt while
attempts remain, and after `n` failed attempts surfaces the last failure;
the sleep list for a success on attempt `k` (0-based) is exactly
`[d*1, ..., d*k]`. -/
theorem withRetry_spec {E A : Type} (fn : Nat → Except E A) (n d k : Nat) (a : A)
    (e : Nat → E) :
    (k < n → (∀ j, j < k → fn j = .error (e j)) → fn k = .ok a →
      withRetry fn n d = (.ok a, (List.range' 1 k).map (fun m => d * m))) ∧
    (1 ≤ n → (∀ j, j < n → fn j = .error (e j)) →
      withRetry fn n d = (.error (some (e (n - 1))), (List.range' 1 (n - 1)).map (fun m => d * m))) := by
  constructor
  · intro hk hfail hok
    have h := withRetryAux_ok fn d n k a e hk 0 none (by omega) (fun j _ hj => hfail j hj) hok
    simpa [withRetry] using h
  · intro hn hfail
    have h := withRetryAux_err fn d n e 0 none (by omega) (fun j _ hj => hfail j hj)
    simpa [withRetry] using h

/-- Witness for claim C4: with max attempts 3 and base delay 5, an action
failing twice then succeeding returns the success value having slept
exactly 5 and 10. -/
theorem withRetry_spec_witness : withRetry retryDemoFn 3 5 = (.ok 42, [5, 10]) := by
  have h := (withRetry_spec retryDemoFn 3 5 2 42 (fun j => toString j)).1 (by omega)
    (by intro j hj; interval_cases j <;> rfl) rfl
  exact h.trans (by rfl)

/-- Claim C5: with skip-existing set, the planned sequence is exactly the
dense range `[startId, endId]` minus the persisted ids, is strictly
ascending (hence duplicate-free) and never leaves the requested bounds;
an empty list is an ordinary value of the planner. -/
theorem plannedIds_skipExisting_spec (persisted : List Nat) (startId endId : Nat)
    (_h : startId ≤ endId) :
    (∀ i, i ∈ plannedIds true persisted startId endId ↔
      (startId ≤ i ∧ i ≤ endId ∧ i ∉ persisted)) ∧
    (plannedIds true persisted startId endId).Pairwise (· < ·) := by
  constructor
  · intro i
    rw [mem_plannedIds]
    simp
  · simp only [plannedIds, if_pos]
    exact getMissingIds_pairwise persisted startId endId

/-- Witness for claim C5 at bounds 1..3 with persisted id 2. -/
theorem plannedIds_skipExisting_spec_witness :
    1 ≤ 3 ∧ (plannedIds true [2] 1 3).Pairwise (· < ·) :=
  ⟨by omega, (plannedIds_skipExisting_spec [2] 1 3 (by omega)).2⟩

/-- Claim C6: with the resume flag set (and ids starting from 1), the
effective start is `max startId (lastScrapedId + 1)`, and the resumed
plan is a subset of the fresh plan over the same bounds and flags. -/
theorem resume_plans_subset (lastId startId endId : Nat) (skipExisting : Bool)
    (persisted : List Nat) (h : 1 ≤ startId) :
    effectiveStart true lastId startId = max startId (lastId + 1) ∧
    plannedIds skipExisting persisted (effectiveStart true lastId startId) endId ⊆
      plannedIds skipExisting persisted startId endId := by
  have hes : effectiveStart true lastId startId = max startId (lastId + 1) := by
    unfold effectiveStart
    by_cases hp : 0 < lastId
    · simp [hp]
    · have hz : lastId = 0 := by omega
      subst hz
      simp
      omega
  refine ⟨hes, ?_⟩
  intro i hi
  rw [mem_plannedIds] at hi ⊢
  rw [hes] at hi
  exact ⟨by omega, hi.2.1, hi.2.2⟩

/-- Witness for claim C6: resuming from watermark 5 over 1..9. -/
theorem resume_plans_subset_witness :
    1 ≤ 1 ∧ effectiveStart true 5 1 = max 1 (5 + 1) :=
  ⟨by omega, (resume_plans_subset 5 1 9 true [] (by omega)).1⟩

/-- Claim C10: the derived parent category id is the first element of the
fixed list [33, 32, 30, 28, 27, 38, 40, 22, 11, 9, 8, 7, 6, 5, 4, 3, 2, 1]
whose decimal representation prefixes the subcategory id's decimal
representation; in particular 30271 derives parent 30 (30 precedes 3 in
the list). -/
theorem extractParentCategoryId_spec :
    extractParentCategoryId 30271 = 30 ∧
    ∀ n p, p ∈ knownParentIds → decStartsWith (Nat.repr n).data p = true →
      extractParentCategoryId n ∈ knownParentIds ∧
      decStartsWith (Nat.repr n).data (extractParentCategoryId n) = true ∧
      ∀ q ∈ knownParentIds, decStartsWith (Nat.repr n).data q = true →
        knownParentIds.indexOf (extractParentCategoryId n) ≤ knownParentIds.indexOf q := by
  refine ⟨by decide, ?_⟩
  intro n p hp hdp
  rcases hf : knownParentIds.find? (fun q => decStartsWith (Nat.repr n).data q) with _ | r
  · rw [List.find?_eq_none] at hf
    exact absurd hdp (by simpa using hf p hp)
  · have hres : extractParentCategoryId n = r := by
      unfold extractParentCategoryId
      simp only [hf]
    rw [hres]
    exact ⟨List.mem_of_find?_eq_some hf, List.find?_some hf,
      fun q hq hdq => find?_first_index _ _ _ hf q hq hdq⟩

/-- Witness for claim C10: subcategory id 280068 derives a parent that is
a known parent id (namely via the prefix 28). -/
theorem extractParentCategoryId_spec_witness :
    extractParentCategoryId 280068 ∈ knownParentIds :=
  ((extractParentCategoryId_spec).2 280068 28 (by decide) (by decide)).1

set_option maxRecDepth 10000

/-- Counterexample to claim C1: the SQL upsert assigns every column the
new (excluded) value — only `raw_html` is coalesced — so a second write
that is null on `district` clobbers the previously stored non-null
district. -/
theorem upsertSignal_counterexample :
    ((upsertSignal [] sigFirst).lookup 1).map (fun r => r.district)
      = some (some "район Младост") ∧
    sigSecond.id = 1 ∧ sigSecond.district = none ∧
    ((upsertSignal (upsertSignal [] sigFirst) sigSecond).lookup 1).map (fun r => r.district)
      = some none := by
  refine ⟨by decide, by decide, by decide, by decide⟩

/-- Claim C1 (amended): upserting the same id twice yields exactly one
stored row whose columns all take the second write's values — nulls
included — except `raw_html`, which keeps the first write's value when
the second write's `raw_html` is null (the COALESCE merge applies to
`raw_html` only). -/
theorem upsertSignal_merge_amended (s1 s2 : Signal) (hid : s1.id = s2.id) :
    upsertSignal (upsertSignal [] s1) s2 = [(s1.id, mergeRow (toRow s1) s2)] ∧
    (mergeRow (toRow s1) s2).district = s2.district ∧
    (mergeRow (toRow s1) s2).status = s2.status ∧
    (mergeRow (toRow s1) s2).raw_html =
      (match s2.rawHtml with
       | some h => some h
       | none => s1.rawHtml) := by
  refine ⟨?_, rfl, rfl, rfl⟩
  simp [upsertSignal, hid]

/-- Witness for claim C1 at the two concrete records of signal 1. -/
theorem upsertSignal_merge_amended_witness :
    upsertSignal (upsertSignal [] sigFirst) sigSecond
      = [(1, mergeRow (toRow sigFirst) sigSecond)] :=
  (upsertSignal_merge_amended sigFirst sigSecond rfl).1

/-- Counterexample to claim C2: processing an already-present id (with
skip-existing off) takes the skipped outcome, which leaves the Progress
Store untouched — the watermark stays 0 although id 3 was processed — so
not all four outcomes update the progress row. -/
theorem scrapeSignal_skipped_counterexample :
    (scrapeSignal false false true (.nullHtml) none [] [] 100 3 demoState []).1.progress
      = demoState.progress ∧
    demoState.progress.lastScrapedId = 0 ∧
    (scrapeSignal false false true (.nullHtml) none [] [] 100 3 demoState []).1.stats.skipped
      = 1 :=
  ⟨rfl, rfl, rfl⟩

/-- Claim C2 (amended): the watermark is written as a monotonic maximum
(a smaller lastId never decreases it), and the scraped, not-found and
error outcomes each update the Progress Store exactly once per id with
the respective counter increments; the skipped outcome, however, does not
touch the Progress Store at all — it only bumps the in-memory skipped
counter. -/
theorem progress_updates_amended (sh : Bool) (pf : Option String)
    (cats : List (Nat × String)) (subs : List (Nat × String × Nat))
    (f id : Nat) (st : ScrapeState) (tbl : SignalTable) (msg raw : String) (doc : Node)
    (p : Progress) (lastId i e : Nat) :
    p.lastScrapedId ≤ (updateProgress p lastId i e).lastScrapedId ∧
    (lastId ≤ p.lastScrapedId → (updateProgress p lastId i e).lastScrapedId = p.lastScrapedId) ∧
    (scrapeSignal false sh true (.nullHtml) pf cats subs f id st tbl).1.progress = st.progress ∧
    (scrapeSignal false sh false (.nullHtml) pf cats subs f id st tbl).1.progress
      = updateProgress st.progress id 0 0 ∧
    (scrapeSignal false sh false (.throws msg) pf cats subs f id st tbl).1.progress
      = updateProgress st.progress id 0 1 ∧
    ((strContains raw notFoundMarker1 || strContains raw notFoundMarker2) = false →
      (parse f doc id).isSome = true →
      (scrapeSignal false sh false (.ok raw doc) none cats subs f id st tbl).1.progress
        = updateProgress st.progress id 1 0 ∧
      (scrapeSignal false sh false (.ok raw doc) (some msg) cats subs f id st tbl).1.progress
        = updateProgress st.progress id 0 1) := by
  refine ⟨Nat.le_max_left _ _, fun hle => Nat.max_eq_left hle, rfl, rfl, rfl, ?_⟩
  intro hm hs
  constructor
  · unfold scrapeSignal
    rw [if_neg (by simp)]
    dsimp only
    rw [if_neg (by simp [hm])]
    rcases hp : parse f doc id with _ | sig
    · rw [hp] at hs
      cases hs
    · rfl
  · unfold scrapeSignal
    rw [if_neg (by simp)]
    dsimp only
    rw [if_neg (by simp [hm])]
    rcases hp : parse f doc id with _ | sig
    · rw [hp] at hs
      cases hs
    · rfl

/-- Witness for claim C2: a successful scrape of id 9 from the zero state
writes the progress row once with increments (1, 0). -/
theorem progress_updates_amended_witness :
    (scrapeSignal false false false (.ok "x" docPlain) none [] [] 100 9 demoState []).1.progress
      = updateProgress demoState.progress 9 1 0 :=
  ((progress_updates_amended false none [] [] 100 9 demoState [] "m" "x" docPlain
    demoState.progress 0 0 0).2.2.2.2.2 (by decide) (by decide)).1

/-- Counterexample to claim C3: on a page with no label element at all,
`extractRowValue` still returns a value, found through the `.row`
fallback whose flattened-text check matches script content; and a
candidate of 1001 characters coming from a genuine label's `.col-md-10`
sibling is returned, not rejected — the only length cap in the code is
the 500-character bound of the next-sibling path. -/
theorem extractRowValue_counterexample :
    extractRowValue 100 docUnanchored "Район" = some "JUNKVALUE" ∧
    (elemCtxs 100 docUnanchored).all (fun c => !(hasTag c.node "label")) = true ∧
    (extractRowValue 100 docLongValue "Район").map (fun s => s.data.length) = some 1001 := by
  refine ⟨by decide, by decide, by decide⟩

/-- Claim C3 (amended): `extractRowValue` first searches genuine label
elements — on the page where "Район" occurs both in a script and in a
label whose value region is "район Младост", it returns "район Младост";
values from the label's next sibling are rejected at 500 characters or
more (the page whose only candidate is a 600-character next sibling
yields no value); but when no label matches, a fallback scans `.row`
containers by flattened text (script content included) and returns their
first `.col-md-10` descendant's text without any length cap. -/
theorem extractRowValue_amended :
    extractRowValue 100 docAnchored "Район" = some "район Младост" ∧
    extractRowValue 100 docNextSibCap "Район" = none ∧
    extractRowValue 100 docUnanchored "Район" = some "JUNKVALUE" := by
  refine ⟨by decide, by decide, by decide⟩

/-- The two coordinate variables of the parser are always assigned as a
pair: each branch of the coordinate logic either sets both or leaves both
as they were. -/
theorem parseCoords_paired (f : Nat) (doc : Node) :
    ((parseCoords f doc).1 = none ↔ (parseCoords f doc).2 = none) := by
  unfold parseCoords
  dsimp only
  split
  · split
    · simp
    · split
      · split
        · simp
        · simp
      · simp
  · split
    · split
      · simp
      · simp
    · simp

/-- The latitude/longitude fields of a parsed record are exactly the
coordinate pair computed by `parseCoords`. -/
theorem parse_latlng (f : Nat) (doc : Node) (id : Nat) (s : Signal)
    (h : parse f doc id = some s) :
    s.latitude = (parseCoords f doc).1 ∧ s.longitude = (parseCoords f doc).2 := by
  unfold parse at h
  by_cases hm : (strContains (bodyTextOf f doc) notFoundMarker1 ||
      strContains (bodyTextOf f doc) notFoundMarker2) = true
  · rw [if_pos hm] at h
    cases h
  · rw [if_neg hm] at h
    dsimp only at h
    rw [Option.some_inj] at h
    subst h
    exact ⟨rfl, rfl⟩

/-- Claim C7: in every parsed record the coordinates are both null or
both non-null; the location text `Местоположение [42.123456,23.654321]`
yields latitude 42.123456 and longitude 23.654321, and a location text
with a single bracketed number yields no coordinates at all. -/
theorem parse_coords_spec (f : Nat) (doc : Node) (id : Nat) :
    ((parse f doc id).all fun q => decide (q.latitude = none) == decide (q.longitude = none))
      = true ∧
    (parse 100 docCoords 5).map (fun q => (q.latitude, q.longitude)) =
      some (some (.num ⟨42123456, 6⟩), some (.num ⟨23654321, 6⟩)) ∧
    (parse 100 docOneCoord 5).map (fun q => (q.latitude, q.longitude)) = some (none, none) := by
  refine ⟨?_, by decide, by decide⟩
  rcases hp : parse f doc id with _ | s
  · rfl
  · have hl := parse_latlng f doc id s hp
    show (decide (s.latitude = none) == decide (s.longitude = none)) = true
    rw [beq_iff_eq, decide_eq_decide, hl.1, hl.2]
    exact parseCoords_paired f doc

/-- Claim C8: processing an id already present in the store, with
skip-existing off, performs no network fetch, increments the skipped
counter and leaves the scraped counter unchanged. -/
theorem scrapeSignal_skip_spec (saveHtml : Bool) (fetch : FetchResult)
    (persistFails : Option String) (cats : List (Nat × String))
    (subs : List (Nat × String × Nat)) (f id : Nat) (st : ScrapeState) (tbl : SignalTable) :
    (scrapeSignal false saveHtml true fetch persistFails cats subs f id st tbl).2.2 = false ∧
    (scrapeSignal false saveHtml true fetch persistFails cats subs f id st tbl).1.stats.skipped
      = st.stats.skipped + 1 ∧
    (scrapeSignal false saveHtml true fetch persistFails cats subs f id st tbl).1.stats.scraped
      = st.stats.scraped :=
  ⟨rfl, rfl, rfl⟩

/-- Counterexample to claim C9: the parser's presence check reads
`$('body').text()`, which includes script content, so a page whose only
marker occurrence sits inside a script is rejected (`parse` returns none)
although its visible text — the repository's own `extractRawContent`,
which strips script/style/noscript — contains neither marker phrase. -/
theorem parse_visibleText_counterexample :
    parse 100 docScriptMarker 7 = none ∧
    strContains (extractRawContent 100 docScriptMarker) notFoundMarker1 = false ∧
    strContains (extractRawContent 100 docScriptMarker) notFoundMarker2 = false := by
  refine ⟨by decide, by decide, by decide⟩

/-- Claim C9 (amended): `parse` returns none exactly when the body's
flattened text — script and style content included — contains one of the
two marker phrases; on every other document it returns a record (the
extraction is total, each optional field defaulting independently), and
only this presence check can short-circuit the extraction. -/
theorem parse_none_iff_bodyText (f : Nat) (doc : Node) (id : Nat) :
    parse f doc id = none ↔
      (strContains (bodyTextOf f doc) notFoundMarker1 ||
       strContains (bodyTextOf f doc) notFoundMarker2) = true := by
  by_cases h : (strContains (bodyTextOf f doc) notFoundMarker1 ||
       strContains (bodyTextOf f doc) notFoundMarker2) = true
  · simp [parse, h]
  · simp [parse, h]

end CallSofia
